/-
Verification of the aiswarm-hub quantitative core.

Shallow embedding conventions:
* Go float64 values are modelled as real numbers (ℝ); the transcendental
  functions math.Exp / math.Log / math.Log10 become Real.exp / Real.log /
  Real.logb 10.
* Go float64 division is total and yields ±Inf or NaN on a zero divisor;
  where a claim is about such non-finite results we model division as
  fdiv : ℝ → ℝ → Option ℝ, with none standing for any non-finite float.
* Go int / int64 counters are modelled as ℤ (ℕ for list lengths/counts).
* Structs become structures; methods that mutate the receiver become
  functions returning the updated structure.
-/
import Mathlib

/-- LMSR market maker from backend/handlers/math/probabilities/lmsr/lmsr.go;
B is the liquidity parameter. -/
structure LMSR where
  B : ℝ

/-- Cost function: C(q) = b * ln(sum of exp(q_i / b)), written with the
log-sum-exp stabilization exactly as in the source. -/
noncomputable def LMSR.Cost (l : LMSR) (qYes qNo : ℝ) : ℝ :=
  let maxQ := max qYes qNo
  l.B * maxQ / l.B + l.B * Real.log (Real.exp ((qYes - maxQ) / l.B) + Real.exp ((qNo - maxQ) / l.B))

/-- Instantaneous price (probability) of the YES outcome (softmax form). -/
noncomputable def LMSR.PriceYes (l : LMSR) (qYes qNo : ℝ) : ℝ :=
  let maxQ := max qYes qNo
  let expYes := Real.exp ((qYes - maxQ) / l.B)
  let expNo := Real.exp ((qNo - maxQ) / l.B)
  expYes / (expYes + expNo)

/-- Instantaneous price of the NO outcome. -/
noncomputable def LMSR.PriceNo (l : LMSR) (qYes qNo : ℝ) : ℝ :=
  1.0 - l.PriceYes qYes qNo

/-- Cost to buy shares of an outcome: Cost(q_new) - Cost(q_current).
The outcome test mirrors the source: the string yes or YES buys the YES
side, every other string falls to the else branch (the NO side). -/
noncomputable def LMSR.CostToBuy (l : LMSR) (qYes qNo shares : ℝ) (outcome : String) : ℝ :=
  let currentCost := l.Cost qYes qNo
  let newCost :=
    if outcome = "yes" ∨ outcome = "YES" then l.Cost (qYes + shares) qNo
    else l.Cost qYes (qNo + shares)
  newCost - currentCost

/-- Proceeds from selling shares: -CostToBuy with negated shares. -/
noncomputable def LMSR.CostToSell (l : LMSR) (qYes qNo shares : ℝ) (outcome : String) : ℝ :=
  -(l.CostToBuy qYes qNo (-shares) outcome)

/-- Body of the bisection loop in SharesForCost: fuel counts the remaining
iterations (the source runs at most 100), low/high are the bracket. -/
noncomputable def LMSR.sharesLoop (l : LMSR) (qYes qNo cost : ℝ) (outcome : String) :
    ℕ → ℝ → ℝ → ℝ
  | 0, low, high => (low + high) / 2
  | fuel + 1, low, high =>
    let mid := (low + high) / 2
    let midCost := l.CostToBuy qYes qNo mid outcome
    if |midCost - cost| < 0.0001 then mid
    else if midCost < cost then l.sharesLoop qYes qNo cost outcome fuel mid high
    else l.sharesLoop qYes qNo cost outcome fuel low mid

/-- How many shares a given cost buys: 0 for cost ≤ 0, otherwise a
100-iteration bisection over [0, cost * 10]. -/
noncomputable def LMSR.SharesForCost (l : LMSR) (qYes qNo cost : ℝ) (outcome : String) : ℝ :=
  if cost ≤ 0 then 0
  else l.sharesLoop qYes qNo cost outcome 100 0 (cost * 10)

/-- New YES probability after a bet of a given currency amount. -/
noncomputable def LMSR.NewProbabilityAfterBet (l : LMSR) (qYes qNo amount : ℝ) (outcome : String) : ℝ :=
  let shares := l.SharesForCost qYes qNo amount outcome
  if outcome = "yes" ∨ outcome = "YES" then l.PriceYes (qYes + shares) qNo
  else l.PriceYes qYes (qNo + shares)

/-- Result record of SimulateBet.  averagePrice is an Option: none models
the non-finite float64 (Inf or NaN) Go produces on division by zero. -/
structure BetSimulation where
  sharesReceived : ℝ
  cost : ℝ
  newPriceYes : ℝ
  newPriceNo : ℝ
  priceImpact : ℝ
  averagePrice : Option ℝ
  potentialPayout : ℝ

/-- Models Go float64 division for claims about non-finite results: none
stands for the ±Inf or NaN produced when the divisor is exactly zero. -/
noncomputable def fdiv (a b : ℝ) : Option ℝ :=
  if b = 0 then none else some (a / b)

/-- SimulateBet: preview of a bet, mirroring the source field by field;
the averagePrice field is cost / sharesReceived with no zero guard. -/
noncomputable def LMSR.SimulateBet (l : LMSR) (qYes qNo amount : ℝ) (outcome : String) :
    BetSimulation :=
  let currentPriceYes := l.PriceYes qYes qNo
  let cost := amount
  let shares := l.SharesForCost qYes qNo amount outcome
  let newQYes := if outcome = "yes" ∨ outcome = "YES" then qYes + shares else qYes
  let newQNo := if outcome = "yes" ∨ outcome = "YES" then qNo else qNo + shares
  let newPriceYes := l.PriceYes newQYes newQNo
  { sharesReceived := shares
    cost := cost
    newPriceYes := newPriceYes
    newPriceNo := 1 - newPriceYes
    priceImpact := newPriceYes - currentPriceYes
    averagePrice := fdiv cost shares
    potentialPayout := shares }

/-- The market maker with the default liquidity parameter 100. -/
def lmsr100 : LMSR := ⟨100⟩

lemma LMSR.costToBuy_invalid (l : LMSR) (qYes qNo shares : ℝ) (outcome : String)
    (h1 : outcome ≠ "yes") (h2 : outcome ≠ "YES") :
    l.CostToBuy qYes qNo shares outcome = l.CostToBuy qYes qNo shares "no" := by
  unfold LMSR.CostToBuy
  rw [if_neg (by simp [h1, h2]), if_neg (by decide)]

lemma LMSR.sharesLoop_congr (l : LMSR) (qYes qNo cost : ℝ) (o o' : String)
    (h : ∀ s : ℝ, l.CostToBuy qYes qNo s o = l.CostToBuy qYes qNo s o') :
    ∀ (fuel : ℕ) (low high : ℝ),
      l.sharesLoop qYes qNo cost o fuel low high = l.sharesLoop qYes qNo cost o' fuel low high := by
  intro fuel
  induction fuel with
  | zero => intro low high; rfl
  | succ n ih =>
    intro low high
    show (if |l.CostToBuy qYes qNo ((low + high) / 2) o - cost| < 0.0001 then (low + high) / 2
      else if l.CostToBuy qYes qNo ((low + high) / 2) o < cost then
        l.sharesLoop qYes qNo cost o n ((low + high) / 2) high
      else l.sharesLoop qYes qNo cost o n low ((low + high) / 2)) =
      (if |l.CostToBuy qYes qNo ((low + high) / 2) o' - cost| < 0.0001 then (low + high) / 2
      else if l.CostToBuy qYes qNo ((low + high) / 2) o' < cost then
        l.sharesLoop qYes qNo cost o' n ((low + high) / 2) high
      else l.sharesLoop qYes qNo cost o' n low ((low + high) / 2))
    rw [h ((low + high) / 2), ih, ih]

lemma LMSR.sharesForCost_invalid (l : LMSR) (qYes qNo cost : ℝ) (outcome : String)
    (h1 : outcome ≠ "yes") (h2 : outcome ≠ "YES") :
    l.SharesForCost qYes qNo cost outcome = l.SharesForCost qYes qNo cost "no" := by
  unfold LMSR.SharesForCost
  rcases le_or_lt cost 0 with hc | hc
  · rw [if_pos hc, if_pos hc]
  · rw [if_neg (not_le.mpr hc), if_neg (not_le.mpr hc),
      LMSR.sharesLoop_congr l qYes qNo cost outcome "no"
        (fun s => l.costToBuy_invalid qYes qNo s outcome h1 h2)]

/-- C1 (amended): the pricing functions never fail on an outcome string
outside the yes/YES domain; every such string is silently treated exactly
like the NO outcome.  There is no InvalidOutcome error anywhere in the
pricing code: all five functions are total and coerce. -/
theorem pricing_invalid_outcome_treated_as_no (l : LMSR) (qYes qNo shares cost amount : ℝ)
    (outcome : String) (h1 : outcome ≠ "yes") (h2 : outcome ≠ "YES") :
    l.CostToBuy qYes qNo shares outcome = l.CostToBuy qYes qNo shares "no"
    ∧ l.CostToSell qYes qNo shares outcome = l.CostToSell qYes qNo shares "no"
    ∧ l.SharesForCost qYes qNo cost outcome = l.SharesForCost qYes qNo cost "no"
    ∧ l.NewProbabilityAfterBet qYes qNo amount outcome = l.NewProbabilityAfterBet qYes qNo amount "no"
    ∧ l.SimulateBet qYes qNo amount outcome = l.SimulateBet qYes qNo amount "no" := by
  refine ⟨l.costToBuy_invalid qYes qNo shares outcome h1 h2, ?_, ?_, ?_, ?_⟩
  · unfold LMSR.CostToSell
    rw [l.costToBuy_invalid qYes qNo (-shares) outcome h1 h2]
  · exact l.sharesForCost_invalid qYes qNo cost outcome h1 h2
  · unfold LMSR.NewProbabilityAfterBet
    rw [l.sharesForCost_invalid qYes qNo amount outcome h1 h2]
    simp only [show (outcome = "yes" ∨ outcome = "YES") ↔ False by simp [h1, h2],
      show (("no" : String) = "yes" ∨ ("no" : String) = "YES") ↔ False by decide, if_false]
  · unfold LMSR.SimulateBet
    rw [l.sharesForCost_invalid qYes qNo amount outcome h1 h2]
    simp only [show (outcome = "yes" ∨ outcome = "YES") ↔ False by simp [h1, h2],
      show (("no" : String) = "yes" ∨ ("no" : String) = "YES") ↔ False by decide, if_false]

/-- C1 witness: concrete invalid outcome. -/
theorem pricing_invalid_outcome_treated_as_no_witness :
    lmsr100.CostToBuy 0 0 1 "banana" = lmsr100.CostToBuy 0 0 1 "no"
    ∧ lmsr100.CostToSell 0 0 1 "banana" = lmsr100.CostToSell 0 0 1 "no"
    ∧ lmsr100.SharesForCost 0 0 1 "banana" = lmsr100.SharesForCost 0 0 1 "no"
    ∧ lmsr100.NewProbabilityAfterBet 0 0 1 "banana" = lmsr100.NewProbabilityAfterBet 0 0 1 "no"
    ∧ lmsr100.SimulateBet 0 0 1 "banana" = lmsr100.SimulateBet 0 0 1 "no" :=
  pricing_invalid_outcome_treated_as_no lmsr100 0 0 1 1 1 "banana" (by decide) (by decide)

/-- C1 counterexample: the claim says an outcome string outside the
yes/YES domain makes the pricing functions fail fast with an
InvalidOutcome error and is never silently coerced; in fact CostToBuy and
SimulateBet on the invalid string banana return exactly the value they
return for the NO outcome: the invalid outcome is silently coerced and no
error value exists in the pricing code. -/
theorem pricing_invalid_outcome_cex :
    lmsr100.CostToBuy 0 0 1 "banana" = lmsr100.CostToBuy 0 0 1 "no"
    ∧ lmsr100.SimulateBet 0 0 5 "banana" = lmsr100.SimulateBet 0 0 5 "no" := by
  constructor
  · exact lmsr100.costToBuy_invalid 0 0 1 "banana" (by decide) (by decide)
  · unfold LMSR.SimulateBet
    rw [lmsr100.sharesForCost_invalid 0 0 5 "banana" (by decide) (by decide)]
    simp only [show (("banana" : String) = "yes" ∨ ("banana" : String) = "YES") ↔ False by decide,
      show (("no" : String) = "yes" ∨ ("no" : String) = "YES") ↔ False by decide, if_false]

/-- C8: SimulateBet does not guard the average-price division: at the
finite input amount = 0 (zero shares bought) the returned simulation has
averagePrice = cost / 0, a non-finite float64 (modelled as none). -/
theorem simulateBet_averagePrice_unguarded :
    (lmsr100.SimulateBet 0 0 0 "yes").sharesReceived = 0
    ∧ (lmsr100.SimulateBet 0 0 0 "yes").averagePrice = none := by
  have hs : lmsr100.SharesForCost 0 0 0 "yes" = 0 := by
    unfold LMSR.SharesForCost
    rw [if_pos le_rfl]
  constructor
  · show lmsr100.SharesForCost 0 0 0 "yes" = 0
    exact hs
  · show fdiv 0 (lmsr100.SharesForCost 0 0 0 "yes") = none
    rw [hs]
    unfold fdiv
    rw [if_pos rfl]

/-- Calendar timestamp at the granularity the streak logic observes: a
calendar-day index plus a time-of-day; truncating to midnight keeps only
the day index.  Models time.Time in the same location (real wall-clock /
timezone effects are outside the embedding). -/
structure Timestamp where
  day : ℤ
  tod : ℚ
deriving DecidableEq

/-- Agent record from the models package (the fields the scoring and
consensus code reads or writes; persistence-only fields are omitted). -/
structure Agent where
  id : ℤ
  name : String
  totalPredictions : ℤ
  correctPredictions : ℤ
  resolvedPredictions : ℤ
  accuracyScore : ℝ
  engagementScore : ℝ
  creatorScore : ℝ
  activityScore : ℝ
  compositeScore : ℝ
  reputation : ℝ
  totalUpvotesReceived : ℤ
  totalDownvotesReceived : ℤ
  totalCommentsReceived : ℤ
  totalFollowers : ℤ
  totalFollowing : ℤ
  lastActiveAt : Option Timestamp
  currentStreak : ℤ
  longestStreak : ℤ
  daysActiveMonth : ℤ
  marketsCreated : ℤ
  marketEngagementAvg : ℝ

/-- RecalculateAccuracyScore: default 50 with no resolved predictions,
otherwise Bayesian smoothing with prior 50 and strength 10. -/
noncomputable def RecalculateAccuracyScore (a : Agent) : Agent :=
  if a.resolvedPredictions = 0 then { a with accuracyScore := 50 }
  else
    let accuracy := (a.correctPredictions : ℝ) / (a.resolvedPredictions : ℝ) * 100
    let priorStrength : ℝ := 10.0
    { a with accuracyScore :=
        (accuracy * (a.resolvedPredictions : ℝ) + 50 * priorStrength) /
          ((a.resolvedPredictions : ℝ) + priorStrength) }

/-- RecalculateEngagementScore: log10 scale times 25, capped at 100. -/
noncomputable def RecalculateEngagementScore (a : Agent) : Agent :=
  let totalEngagement : ℝ :=
    ((a.totalUpvotesReceived + a.totalCommentsReceived + a.totalFollowers : ℤ) : ℝ)
  if totalEngagement ≤ 0 then { a with engagementScore := 0 }
  else { a with engagementScore := min 100 (Real.logb 10 (totalEngagement + 1) * 25) }

/-- RecalculateActivityScore: days active this month with a streak
multiplier of up to 1.5, capped at 100. -/
noncomputable def RecalculateActivityScore (a : Agent) : Agent :=
  if a.daysActiveMonth = 0 then { a with activityScore := 0 }
  else
    let baseActivity := (a.daysActiveMonth : ℝ) / 30.0 * 100
    let streakMultiplier := 1.0 + min 0.5 ((a.currentStreak : ℝ) / 60.0)
    { a with activityScore := min 100 (baseActivity * streakMultiplier) }

/-- RecalculateCreatorScore: average engagement per market created. -/
noncomputable def RecalculateCreatorScore (a : Agent) : Agent :=
  if a.marketsCreated = 0 then { a with creatorScore := 0 }
  else { a with creatorScore :=
      (min 100 (a.marketEngagementAvg * 0.5 + (a.marketsCreated : ℝ) * 2)) }

/-- RecalculateCompositeScore: fixed 40/25/20/15 weighting. -/
noncomputable def RecalculateCompositeScore (a : Agent) : Agent :=
  { a with compositeScore :=
      a.accuracyScore * 0.40 + a.engagementScore * 0.25 +
        a.creatorScore * 0.20 + a.activityScore * 0.15 }

/-- RecalculateAllScores: the five recalculations in source order, then
the legacy reputation field is set to compositeScore / 100. -/
noncomputable def RecalculateAllScores (a : Agent) : Agent :=
  let a1 := RecalculateAccuracyScore a
  let a2 := RecalculateEngagementScore a1
  let a3 := RecalculateActivityScore a2
  let a4 := RecalculateCreatorScore a3
  let a5 := RecalculateCompositeScore a4
  { a5 with reputation := a5.compositeScore / 100.0 }

/-- UpdateActivity: streak bookkeeping for a prediction event happening at
time now; daysDiff is the difference of the two midnight truncations in
days, exactly as int(today.Sub(lastActive).Hours() / 24) computes it. -/
def UpdateActivity (a : Agent) (now : Timestamp) : Agent :=
  let afterStreak :=
    match a.lastActiveAt with
    | none => { a with currentStreak := 1, daysActiveMonth := 1 }
    | some lastActive =>
      let daysDiff := now.day - lastActive.day
      if daysDiff = 0 then a
      else if daysDiff = 1 then
        { a with currentStreak := a.currentStreak + 1,
                 daysActiveMonth := a.daysActiveMonth + 1 }
      else
        { a with currentStreak := 1, daysActiveMonth := a.daysActiveMonth + 1 }
  let afterLongest :=
    if afterStreak.longestStreak < afterStreak.currentStreak then
      { afterStreak with longestStreak := afterStreak.currentStreak }
    else afterStreak
  { afterLongest with lastActiveAt := some now }

/-- C6: RecalculateAccuracyScore is 50 with no resolved predictions, and
otherwise the Bayesian-smoothed (rawPct * resolved + 50 * 10) / (resolved + 10)
with rawPct = correct / resolved * 100; at resolved = 100, correct = 80
the score is exactly 8500 / 110. -/
theorem recalculateAccuracyScore_spec (a : Agent) :
    (a.resolvedPredictions = 0 → (RecalculateAccuracyScore a).accuracyScore = 50)
    ∧ (a.resolvedPredictions ≠ 0 → (RecalculateAccuracyScore a).accuracyScore =
        ((a.correctPredictions : ℝ) / (a.resolvedPredictions : ℝ) * 100 *
            (a.resolvedPredictions : ℝ) + 50 * 10) / ((a.resolvedPredictions : ℝ) + 10))
    ∧ (a.resolvedPredictions = 100 → a.correctPredictions = 80 →
        (RecalculateAccuracyScore a).accuracyScore = 8500 / 110) := by
  refine ⟨fun h => ?_, fun h => ?_, fun h1 h2 => ?_⟩
  · unfold RecalculateAccuracyScore
    rw [if_pos h]
  · unfold RecalculateAccuracyScore
    rw [if_neg h]
    norm_num
  · unfold RecalculateAccuracyScore
    rw [if_neg (by rw [h1]; norm_num), h1, h2]
    norm_num

/-- C6 witness: a concrete agent with resolved = 100, correct = 80. -/
theorem recalculateAccuracyScore_spec_witness :
    (RecalculateAccuracyScore
        { id := 1, name := "a", totalPredictions := 100, correctPredictions := 80,
          resolvedPredictions := 100, accuracyScore := 50, engagementScore := 0,
          creatorScore := 0, activityScore := 0, compositeScore := 12.5,
          reputation := 0.5, totalUpvotesReceived := 0, totalDownvotesReceived := 0,
          totalCommentsReceived := 0, totalFollowers := 0, totalFollowing := 0,
          lastActiveAt := none, currentStreak := 0, longestStreak := 0,
          daysActiveMonth := 0, marketsCreated := 0,
          marketEngagementAvg := 0 }).accuracyScore = 8500 / 110 :=
  (recalculateAccuracyScore_spec _).2.2 rfl rfl

/-- C7: UpdateActivity keyed on calendar day.  With a recorded last
activity: a call on the same calendar day leaves currentStreak and
daysActiveMonth unchanged; a call exactly one calendar day later
increments both; any larger gap resets currentStreak to 1 while still
incrementing daysActiveMonth; and after every call longestStreak is the
maximum of the old longestStreak and the new currentStreak, and
lastActiveAt is the event time. -/
theorem updateActivity_spec (a : Agent) (now lastActive : Timestamp)
    (h : a.lastActiveAt = some lastActive) :
    ((now.day = lastActive.day →
        (UpdateActivity a now).currentStreak = a.currentStreak
        ∧ (UpdateActivity a now).daysActiveMonth = a.daysActiveMonth)
    ∧ (now.day = lastActive.day + 1 →
        (UpdateActivity a now).currentStreak = a.currentStreak + 1
        ∧ (UpdateActivity a now).daysActiveMonth = a.daysActiveMonth + 1)
    ∧ (lastActive.day + 1 < now.day →
        (UpdateActivity a now).currentStreak = 1
        ∧ (UpdateActivity a now).daysActiveMonth = a.daysActiveMonth + 1))
    ∧ (UpdateActivity a now).longestStreak =
        max a.longestStreak (UpdateActivity a now).currentStreak
    ∧ (UpdateActivity a now).lastActiveAt = some now := by
  unfold UpdateActivity
  rw [h]
  by_cases h0 : now.day - lastActive.day = 0
  · simp only [if_pos h0]
    refine ⟨⟨fun _ => ?_, fun h1 => ?_, fun h1 => ?_⟩, ?_, ?_⟩
    · constructor <;> (split <;> rfl)
    · omega
    · omega
    · split
      · next hlt => simp [max_eq_right (le_of_lt hlt)]
      · next hlt => simp [max_eq_left (le_of_not_lt hlt)]
    · trivial
  · by_cases h1 : now.day - lastActive.day = 1
    · simp only [if_neg h0, if_pos h1]
      refine ⟨⟨fun hd => ?_, fun _ => ?_, fun hd => ?_⟩, ?_, ?_⟩
      · omega
      · constructor <;> (split <;> rfl)
      · omega
      · split
        · next hlt => simp [max_eq_right (le_of_lt hlt)]
        · next hlt => simp [max_eq_left (le_of_not_lt hlt)]
      · trivial
    · simp only [if_neg h0, if_neg h1]
      refine ⟨⟨fun hd => ?_, fun hd => ?_, fun _ => ?_⟩, ?_, ?_⟩
      · omega
      · omega
      · constructor <;> (split <;> rfl)
      · split
        · next hlt => simp [max_eq_right (le_of_lt hlt)]
        · next hlt => simp [max_eq_left (le_of_not_lt hlt)]
      · trivial

/-- A concrete agent whose last activity is day 5. -/
def agentDay5 : Agent :=
  { id := 1, name := "a", totalPredictions := 3, correctPredictions := 2,
    resolvedPredictions := 2, accuracyScore := 50, engagementScore := 0,
    creatorScore := 0, activityScore := 0, compositeScore := 12.5,
    reputation := 0.5, totalUpvotesReceived := 0, totalDownvotesReceived := 0,
    totalCommentsReceived := 0, totalFollowers := 0, totalFollowing := 0,
    lastActiveAt := some ⟨5, 0⟩, currentStreak := 2, longestStreak := 4,
    daysActiveMonth := 3, marketsCreated := 0, marketEngagementAvg := 0 }

/-- C7 witness: the next-calendar-day case at a concrete agent and time. -/
theorem updateActivity_spec_witness :
    ((6 : ℤ) = 5 →
        (UpdateActivity agentDay5 ⟨6, 1/2⟩).currentStreak = agentDay5.currentStreak
        ∧ (UpdateActivity agentDay5 ⟨6, 1/2⟩).daysActiveMonth = agentDay5.daysActiveMonth)
    ∧ ((6 : ℤ) = 5 + 1 →
        (UpdateActivity agentDay5 ⟨6, 1/2⟩).currentStreak = agentDay5.currentStreak + 1
        ∧ (UpdateActivity agentDay5 ⟨6, 1/2⟩).daysActiveMonth = agentDay5.daysActiveMonth + 1)
    ∧ ((5 : ℤ) + 1 < 6 →
        (UpdateActivity agentDay5 ⟨6, 1/2⟩).currentStreak = 1
        ∧ (UpdateActivity agentDay5 ⟨6, 1/2⟩).daysActiveMonth = agentDay5.daysActiveMonth + 1)
    ∧ (UpdateActivity agentDay5 ⟨6, 1/2⟩).longestStreak =
        max agentDay5.longestStreak (UpdateActivity agentDay5 ⟨6, 1/2⟩).currentStreak
    ∧ (UpdateActivity agentDay5 ⟨6, 1/2⟩).lastActiveAt = some ⟨6, 1/2⟩ := by
  have h := updateActivity_spec agentDay5 ⟨6, 1/2⟩ ⟨5, 0⟩ rfl
  exact ⟨h.1.1, h.1.2.1, h.1.2.2, h.2.1, h.2.2⟩

@[simp] lemma recalcAccuracy_engagementScore (a : Agent) :
    (RecalculateAccuracyScore a).engagementScore = a.engagementScore := by
  unfold RecalculateAccuracyScore; split <;> rfl

@[simp] lemma recalcAccuracy_activityScore (a : Agent) :
    (RecalculateAccuracyScore a).activityScore = a.activityScore := by
  unfold RecalculateAccuracyScore; split <;> rfl

@[simp] lemma recalcAccuracy_creatorScore (a : Agent) :
    (RecalculateAccuracyScore a).creatorScore = a.creatorScore := by
  unfold RecalculateAccuracyScore; split <;> rfl

@[simp] lemma recalcAccuracy_daysActiveMonth (a : Agent) :
    (RecalculateAccuracyScore a).daysActiveMonth = a.daysActiveMonth := by
  unfold RecalculateAccuracyScore; split <;> rfl

@[simp] lemma recalcAccuracy_currentStreak (a : Agent) :
    (RecalculateAccuracyScore a).currentStreak = a.currentStreak := by
  unfold RecalculateAccuracyScore; split <;> rfl

@[simp] lemma recalcAccuracy_marketsCreated (a : Agent) :
    (RecalculateAccuracyScore a).marketsCreated = a.marketsCreated := by
  unfold RecalculateAccuracyScore; split <;> rfl

@[simp] lemma recalcAccuracy_marketEngagementAvg (a : Agent) :
    (RecalculateAccuracyScore a).marketEngagementAvg = a.marketEngagementAvg := by
  unfold RecalculateAccuracyScore; split <;> rfl

@[simp] lemma recalcEngagement_accuracyScore (a : Agent) :
    (RecalculateEngagementScore a).accuracyScore = a.accuracyScore := by
  simp only [RecalculateEngagementScore]; split <;> rfl

@[simp] lemma recalcEngagement_activityScore (a : Agent) :
    (RecalculateEngagementScore a).activityScore = a.activityScore := by
  simp only [RecalculateEngagementScore]; split <;> rfl

@[simp] lemma recalcEngagement_creatorScore (a : Agent) :
    (RecalculateEngagementScore a).creatorScore = a.creatorScore := by
  simp only [RecalculateEngagementScore]; split <;> rfl

@[simp] lemma recalcEngagement_daysActiveMonth (a : Agent) :
    (RecalculateEngagementScore a).daysActiveMonth = a.daysActiveMonth := by
  simp only [RecalculateEngagementScore]; split <;> rfl

@[simp] lemma recalcEngagement_currentStreak (a : Agent) :
    (RecalculateEngagementScore a).currentStreak = a.currentStreak := by
  simp only [RecalculateEngagementScore]; split <;> rfl

@[simp] lemma recalcEngagement_marketsCreated (a : Agent) :
    (RecalculateEngagementScore a).marketsCreated = a.marketsCreated := by
  simp only [RecalculateEngagementScore]; split <;> rfl

@[simp] lemma recalcEngagement_marketEngagementAvg (a : Agent) :
    (RecalculateEngagementScore a).marketEngagementAvg = a.marketEngagementAvg := by
  simp only [RecalculateEngagementScore]; split <;> rfl

@[simp] lemma recalcActivity_accuracyScore (a : Agent) :
    (RecalculateActivityScore a).accuracyScore = a.accuracyScore := by
  simp only [RecalculateActivityScore]; split <;> rfl

@[simp] lemma recalcActivity_engagementScore (a : Agent) :
    (RecalculateActivityScore a).engagementScore = a.engagementScore := by
  simp only [RecalculateActivityScore]; split <;> rfl

@[simp] lemma recalcActivity_creatorScore (a : Agent) :
    (RecalculateActivityScore a).creatorScore = a.creatorScore := by
  simp only [RecalculateActivityScore]; split <;> rfl

@[simp] lemma recalcActivity_marketsCreated (a : Agent) :
    (RecalculateActivityScore a).marketsCreated = a.marketsCreated := by
  simp only [RecalculateActivityScore]; split <;> rfl

@[simp] lemma recalcActivity_marketEngagementAvg (a : Agent) :
    (RecalculateActivityScore a).marketEngagementAvg = a.marketEngagementAvg := by
  simp only [RecalculateActivityScore]; split <;> rfl

@[simp] lemma recalcCreator_accuracyScore (a : Agent) :
    (RecalculateCreatorScore a).accuracyScore = a.accuracyScore := by
  simp only [RecalculateCreatorScore]; split <;> rfl

@[simp] lemma recalcCreator_engagementScore (a : Agent) :
    (RecalculateCreatorScore a).engagementScore = a.engagementScore := by
  simp only [RecalculateCreatorScore]; split <;> rfl

@[simp] lemma recalcCreator_activityScore (a : Agent) :
    (RecalculateCreatorScore a).activityScore = a.activityScore := by
  simp only [RecalculateCreatorScore]; split <;> rfl

@[simp] lemma recalcComposite_accuracyScore (a : Agent) :
    (RecalculateCompositeScore a).accuracyScore = a.accuracyScore := rfl

@[simp] lemma recalcComposite_engagementScore (a : Agent) :
    (RecalculateCompositeScore a).engagementScore = a.engagementScore := rfl

@[simp] lemma recalcComposite_activityScore (a : Agent) :
    (RecalculateCompositeScore a).activityScore = a.activityScore := rfl

@[simp] lemma recalcComposite_creatorScore (a : Agent) :
    (RecalculateCompositeScore a).creatorScore = a.creatorScore := rfl

@[simp] lemma recalcComposite_compositeScore (a : Agent) :
    (RecalculateCompositeScore a).compositeScore =
      a.accuracyScore * 0.40 + a.engagementScore * 0.25 +
        a.creatorScore * 0.20 + a.activityScore * 0.15 := rfl

lemma accuracyScore_bound (a : Agent) (h1 : 0 ≤ a.correctPredictions)
    (h2 : a.correctPredictions ≤ a.resolvedPredictions) :
    0 ≤ (RecalculateAccuracyScore a).accuracyScore
    ∧ (RecalculateAccuracyScore a).accuracyScore ≤ 100 := by
  unfold RecalculateAccuracyScore
  split
  · norm_num
  · next h =>
    have hr1 : (1 : ℝ) ≤ (a.resolvedPredictions : ℝ) := by
      exact_mod_cast (by omega : (1 : ℤ) ≤ a.resolvedPredictions)
    have hr0 : (0 : ℝ) < (a.resolvedPredictions : ℝ) := by linarith
    have hc0 : (0 : ℝ) ≤ (a.correctPredictions : ℝ) := by exact_mod_cast h1
    have hcr : (a.correctPredictions : ℝ) ≤ (a.resolvedPredictions : ℝ) := by exact_mod_cast h2
    have key : (a.correctPredictions : ℝ) / (a.resolvedPredictions : ℝ) * 100 *
        (a.resolvedPredictions : ℝ) = 100 * (a.correctPredictions : ℝ) := by
      field_simp
      ring
    show 0 ≤ (_ / _) ∧ (_ / _) ≤ 100
    rw [key]
    constructor
    · apply div_nonneg <;> norm_num <;> linarith
    · rw [div_le_iff₀ (by norm_num; linarith)]
      norm_num
      linarith

lemma engagementScore_bound (a : Agent) :
    0 ≤ (RecalculateEngagementScore a).engagementScore
    ∧ (RecalculateEngagementScore a).engagementScore ≤ 100 := by
  simp only [RecalculateEngagementScore]
  split
  · norm_num
  · next hgt =>
    show 0 ≤ min 100 _ ∧ min 100 _ ≤ 100
    refine ⟨le_min (by norm_num) ?_, min_le_left _ _⟩
    have h1 : (1 : ℝ) ≤
        ((a.totalUpvotesReceived + a.totalCommentsReceived + a.totalFollowers : ℤ) : ℝ) + 1 := by
      have := not_le.mp hgt
      linarith
    have := Real.logb_nonneg (by norm_num : (1 : ℝ) < 10) h1
    linarith

lemma activityScore_bound (a : Agent) (hd : 0 ≤ a.daysActiveMonth)
    (hs : 0 ≤ a.currentStreak) :
    0 ≤ (RecalculateActivityScore a).activityScore
    ∧ (RecalculateActivityScore a).activityScore ≤ 100 := by
  simp only [RecalculateActivityScore]
  split
  · norm_num
  · show 0 ≤ min 100 _ ∧ min 100 _ ≤ 100
    refine ⟨le_min (by norm_num) ?_, min_le_left _ _⟩
    have hd0 : (0 : ℝ) ≤ (a.daysActiveMonth : ℝ) := by exact_mod_cast hd
    have hs0 : (0 : ℝ) ≤ (a.currentStreak : ℝ) := by exact_mod_cast hs
    have hbase : (0 : ℝ) ≤ (a.daysActiveMonth : ℝ) / 30.0 * 100 := by positivity
    have hmin : (0 : ℝ) ≤ min 0.5 ((a.currentStreak : ℝ) / 60.0) :=
      le_min (by norm_num) (by positivity)
    nlinarith

lemma creatorScore_bound (a : Agent) (hm : 0 ≤ a.marketsCreated)
    (he : 0 ≤ a.marketEngagementAvg) :
    0 ≤ (RecalculateCreatorScore a).creatorScore
    ∧ (RecalculateCreatorScore a).creatorScore ≤ 100 := by
  simp only [RecalculateCreatorScore]
  split
  · norm_num
  · show 0 ≤ min 100 _ ∧ min 100 _ ≤ 100
    refine ⟨le_min (by norm_num) ?_, min_le_left _ _⟩
    have hm0 : (0 : ℝ) ≤ (a.marketsCreated : ℝ) := by exact_mod_cast hm
    nlinarith

/-- C9: for non-negative counters with correct ≤ resolved, RecalculateAllScores
leaves every one of the five scores in [0, 100], and the composite score is
exactly the fixed 0.40/0.25/0.20/0.15 weighting of the other four. -/
theorem recalculateAllScores_bounds (a : Agent)
    (h1 : 0 ≤ a.correctPredictions) (h2 : a.correctPredictions ≤ a.resolvedPredictions)
    (h3 : 0 ≤ a.daysActiveMonth) (h4 : 0 ≤ a.currentStreak)
    (h5 : 0 ≤ a.marketsCreated) (h6 : 0 ≤ a.marketEngagementAvg) :
    (0 ≤ (RecalculateAllScores a).accuracyScore ∧ (RecalculateAllScores a).accuracyScore ≤ 100)
    ∧ (0 ≤ (RecalculateAllScores a).engagementScore
        ∧ (RecalculateAllScores a).engagementScore ≤ 100)
    ∧ (0 ≤ (RecalculateAllScores a).activityScore
        ∧ (RecalculateAllScores a).activityScore ≤ 100)
    ∧ (0 ≤ (RecalculateAllScores a).creatorScore ∧ (RecalculateAllScores a).creatorScore ≤ 100)
    ∧ (RecalculateAllScores a).compositeScore =
        0.40 * (RecalculateAllScores a).accuracyScore
          + 0.25 * (RecalculateAllScores a).engagementScore
          + 0.20 * (RecalculateAllScores a).creatorScore
          + 0.15 * (RecalculateAllScores a).activityScore
    ∧ (0 ≤ (RecalculateAllScores a).compositeScore
        ∧ (RecalculateAllScores a).compositeScore ≤ 100) := by
  have hacc := accuracyScore_bound a h1 h2
  have heng := engagementScore_bound (RecalculateAccuracyScore a)
  have hact := activityScore_bound (RecalculateEngagementScore (RecalculateAccuracyScore a))
    (by simp [h3]) (by simp [h4])
  have hcre := creatorScore_bound
    (RecalculateActivityScore (RecalculateEngagementScore (RecalculateAccuracyScore a)))
    (by simp [h5]) (by simp [h6])
  simp only [RecalculateAllScores]
  simp only [recalcComposite_accuracyScore, recalcComposite_engagementScore,
    recalcComposite_activityScore, recalcComposite_creatorScore, recalcComposite_compositeScore,
    recalcCreator_accuracyScore, recalcCreator_engagementScore, recalcCreator_activityScore,
    recalcActivity_accuracyScore, recalcActivity_engagementScore,
    recalcEngagement_accuracyScore] at *
  refine ⟨hacc, heng, hact, hcre, by ring, ?_, ?_⟩ <;> nlinarith [hacc.1, hacc.2, heng.1,
    heng.2, hact.1, hact.2, hcre.1, hcre.2]

/-- A concrete freshly-registered agent (all counters zero). -/
def agentZero : Agent :=
  { id := 2, name := "z", totalPredictions := 0, correctPredictions := 0,
    resolvedPredictions := 0, accuracyScore := 50, engagementScore := 0,
    creatorScore := 0, activityScore := 0, compositeScore := 12.5,
    reputation := 0.5, totalUpvotesReceived := 0, totalDownvotesReceived := 0,
    totalCommentsReceived := 0, totalFollowers := 0, totalFollowing := 0,
    lastActiveAt := none, currentStreak := 0, longestStreak := 0,
    daysActiveMonth := 0, marketsCreated := 0, marketEngagementAvg := 0 }

/-- C9 witness: the bounds at the all-zero counter configuration. -/
theorem recalculateAllScores_bounds_witness :
    (0 ≤ (RecalculateAllScores agentZero).accuracyScore
        ∧ (RecalculateAllScores agentZero).accuracyScore ≤ 100)
    ∧ (0 ≤ (RecalculateAllScores agentZero).engagementScore
        ∧ (RecalculateAllScores agentZero).engagementScore ≤ 100)
    ∧ (0 ≤ (RecalculateAllScores agentZero).activityScore
        ∧ (RecalculateAllScores agentZero).activityScore ≤ 100)
    ∧ (0 ≤ (RecalculateAllScores agentZero).creatorScore
        ∧ (RecalculateAllScores agentZero).creatorScore ≤ 100)
    ∧ (RecalculateAllScores agentZero).compositeScore =
        0.40 * (RecalculateAllScores agentZero).accuracyScore
          + 0.25 * (RecalculateAllScores agentZero).engagementScore
          + 0.20 * (RecalculateAllScores agentZero).creatorScore
          + 0.15 * (RecalculateAllScores agentZero).activityScore
    ∧ (0 ≤ (RecalculateAllScores agentZero).compositeScore
        ∧ (RecalculateAllScores agentZero).compositeScore ≤ 100) :=
  recalculateAllScores_bounds agentZero (by decide) (by decide) (by decide) (by decide)
    (by decide) le_rfl

/-- Agent bet record from handlers/agents/bet.go (the fields the consensus
aggregation reads). -/
structure AgentBet where
  id : ℤ
  agentID : ℤ
  marketID : ℤ
  amount : ℤ
  outcome : String
  confidence : ℝ
  reasoning : String

/-- Per-bet projection shown in the topPredictors ranking. -/
structure AgentPrediction where
  agentName : String
  outcome : String
  amount : ℤ
  confidence : ℝ
  reputation : ℝ
  weight : ℝ
  reasoning : String

/-- YES / NO split of the consensus report. -/
structure SwarmBreakdown where
  yesCount : ℕ
  noCount : ℕ
  yesWeight : ℝ
  noWeight : ℝ
  yesAmount : ℤ
  noAmount : ℤ

/-- Consensus report returned by the aggregator (marketId is filled in by
the caller; the aggregation itself leaves it zero). -/
structure SwarmConsensus where
  marketID : ℤ
  consensusProbability : ℝ
  totalAgents : ℕ
  totalBets : ℕ
  totalWagered : ℤ
  averageConfidence : ℝ
  averageReputation : ℝ
  breakdown : SwarmBreakdown
  topPredictors : List AgentPrediction

/-- The running accumulator of the aggregation loop in
calculateSwarmConsensus (one field per mutable local of the Go loop;
the uniqueAgents map becomes a finite set of agent ids). -/
structure SwarmAcc where
  weightedYesSum : ℝ
  weightedNoSum : ℝ
  totalWeight : ℝ
  totalConfidence : ℝ
  totalReputation : ℝ
  yesCount : ℕ
  noCount : ℕ
  yesAmount : ℤ
  noAmount : ℤ
  topPredictors : List AgentPrediction
  uniqueAgents : Finset ℤ

/-- All accumulators start at their zero values. -/
def initSwarmAcc : SwarmAcc :=
  { weightedYesSum := 0, weightedNoSum := 0, totalWeight := 0, totalConfidence := 0,
    totalReputation := 0, yesCount := 0, noCount := 0, yesAmount := 0, noAmount := 0,
    topPredictors := [], uniqueAgents := ∅ }

/-- Weight of one resolvable bet:
reputation * confidence * (ln(amount + 1) / ln(100)). -/
noncomputable def betWeight (agent : Agent) (bet : AgentBet) : ℝ :=
  agent.reputation * bet.confidence * (Real.log ((bet.amount : ℝ) + 1) / Real.log 100)

/-- The AgentPrediction appended to topPredictors for one resolvable bet. -/
noncomputable def mkAgentPrediction (agent : Agent) (bet : AgentBet) : AgentPrediction :=
  { agentName := agent.name, outcome := bet.outcome, amount := bet.amount,
    confidence := bet.confidence, reputation := agent.reputation,
    weight := betWeight agent bet, reasoning := bet.reasoning }

/-- One iteration of the aggregation loop: skip the bet if its agent
cannot be resolved, otherwise accumulate on the side selected by the
case-sensitive comparison with the lowercase string yes. -/
noncomputable def consensusStep (agents : ℤ → Option Agent) (acc : SwarmAcc) (bet : AgentBet) :
    SwarmAcc :=
  match agents bet.agentID with
  | none => acc
  | some agent =>
    let weight := betWeight agent bet
    { weightedYesSum := if bet.outcome = "yes" then acc.weightedYesSum + weight
        else acc.weightedYesSum
      weightedNoSum := if bet.outcome = "yes" then acc.weightedNoSum
        else acc.weightedNoSum + weight
      totalWeight := acc.totalWeight + weight
      totalConfidence := acc.totalConfidence + bet.confidence
      totalReputation := acc.totalReputation + agent.reputation
      yesCount := if bet.outcome = "yes" then acc.yesCount + 1 else acc.yesCount
      noCount := if bet.outcome = "yes" then acc.noCount else acc.noCount + 1
      yesAmount := if bet.outcome = "yes" then acc.yesAmount + bet.amount else acc.yesAmount
      noAmount := if bet.outcome = "yes" then acc.noAmount else acc.noAmount + bet.amount
      topPredictors := acc.topPredictors ++ [mkAgentPrediction agent bet]
      uniqueAgents := insert agent.id acc.uniqueAgents }

/-- Inner loop of the bubble sort over topPredictors: fuel is the loop
bound len - i - 1; each recursion step performs the j-th adjacent
comparison, swapping when the left weight is strictly smaller. -/
noncomputable def innerLoop {α : Type} (w : α → ℝ) : ℕ → List α → List α
  | 0, l => l
  | _ + 1, [] => []
  | _ + 1, [a] => [a]
  | fuel + 1, a :: b :: t =>
    if w a < w b then b :: innerLoop w fuel (a :: t)
    else a :: innerLoop w fuel (b :: t)

/-- The nested-loop bubble sort of the source (descending by weight):
outer index i runs over range (len - 1), the inner pass is bounded by
len - i - 1.  The list length is invariant, matching the in-place sort. -/
noncomputable def bubbleSort {α : Type} (w : α → ℝ) (l : List α) : List α :=
  (List.range (l.length - 1)).foldl (fun cur i => innerLoop w (l.length - i - 1) cur) l

/-- calculateSwarmConsensus: neutral report for an empty bet list,
otherwise one aggregation pass, weighted probability, bubble-sorted and
truncated topPredictors, and simple averages divided by the length of the
full input bet list. -/
noncomputable def calculateSwarmConsensus (bets : List AgentBet) (agents : ℤ → Option Agent) :
    SwarmConsensus :=
  if bets.length = 0 then
    { marketID := 0, consensusProbability := 0.5, totalAgents := 0, totalBets := 0,
      totalWagered := 0, averageConfidence := 0, averageReputation := 0,
      breakdown := ⟨0, 0, 0, 0, 0, 0⟩, topPredictors := [] }
  else
    let acc := bets.foldl (consensusStep agents) initSwarmAcc
    let consensusProbability :=
      if 0 < acc.totalWeight then acc.weightedYesSum / acc.totalWeight else 0.5
    let sortedTop := bubbleSort (fun p => p.weight) acc.topPredictors
    let topPredictors := if 10 < sortedTop.length then sortedTop.take 10 else sortedTop
    let avgConfidence :=
      if 0 < bets.length then acc.totalConfidence / (bets.length : ℝ) else 0
    let avgReputation :=
      if 0 < bets.length then acc.totalReputation / (bets.length : ℝ) else 0
    { marketID := 0
      consensusProbability := consensusProbability
      totalAgents := acc.uniqueAgents.card
      totalBets := bets.length
      totalWagered := acc.yesAmount + acc.noAmount
      averageConfidence := avgConfidence
      averageReputation := avgReputation
      breakdown := ⟨acc.yesCount, acc.noCount, acc.weightedYesSum, acc.weightedNoSum,
        acc.yesAmount, acc.noAmount⟩
      topPredictors := topPredictors }

/-- The per-bet projections of exactly the resolvable bets, in input order. -/
noncomputable def resolvableProjections (agents : ℤ → Option Agent) (bets : List AgentBet) :
    List AgentPrediction :=
  bets.filterMap (fun bet => (agents bet.agentID).map (fun agent => mkAgentPrediction agent bet))

/-- Test for a projection accumulated on the YES side. -/
def predYes (p : AgentPrediction) : Bool := p.outcome = "yes"

lemma consensusStep_none {agents : ℤ → Option Agent} {bet : AgentBet} (acc : SwarmAcc)
    (h : agents bet.agentID = none) : consensusStep agents acc bet = acc := by
  simp [consensusStep, h]

lemma consensusStep_some {agents : ℤ → Option Agent} {bet : AgentBet} {agent : Agent}
    (acc : SwarmAcc) (h : agents bet.agentID = some agent) :
    consensusStep agents acc bet =
      { weightedYesSum := if bet.outcome = "yes" then acc.weightedYesSum + betWeight agent bet
          else acc.weightedYesSum
        weightedNoSum := if bet.outcome = "yes" then acc.weightedNoSum
          else acc.weightedNoSum + betWeight agent bet
        totalWeight := acc.totalWeight + betWeight agent bet
        totalConfidence := acc.totalConfidence + bet.confidence
        totalReputation := acc.totalReputation + agent.reputation
        yesCount := if bet.outcome = "yes" then acc.yesCount + 1 else acc.yesCount
        noCount := if bet.outcome = "yes" then acc.noCount else acc.noCount + 1
        yesAmount := if bet.outcome = "yes" then acc.yesAmount + bet.amount else acc.yesAmount
        noAmount := if bet.outcome = "yes" then acc.noAmount else acc.noAmount + bet.amount
        topPredictors := acc.topPredictors ++ [mkAgentPrediction agent bet]
        uniqueAgents := insert agent.id acc.uniqueAgents } := by
  simp [consensusStep, h]

lemma resolvableProjections_cons_none {agents : ℤ → Option Agent} {bet : AgentBet}
    (rest : List AgentBet) (h : agents bet.agentID = none) :
    resolvableProjections agents (bet :: rest) = resolvableProjections agents rest := by
  simp [resolvableProjections, List.filterMap_cons, h]

lemma resolvableProjections_cons_some {agents : ℤ → Option Agent} {bet : AgentBet}
    {agent : Agent} (rest : List AgentBet) (h : agents bet.agentID = some agent) :
    resolvableProjections agents (bet :: rest) =
      mkAgentPrediction agent bet :: resolvableProjections agents rest := by
  simp [resolvableProjections, List.filterMap_cons, h]

lemma foldl_topPredictors (agents : ℤ → Option Agent) (bets : List AgentBet) :
    ∀ acc : SwarmAcc, (bets.foldl (consensusStep agents) acc).topPredictors =
      acc.topPredictors ++ resolvableProjections agents bets := by
  induction bets with
  | nil => intro acc; simp [resolvableProjections]
  | cons bet rest ih =>
    intro acc
    rw [List.foldl_cons]
    cases h : agents bet.agentID with
    | none => rw [consensusStep_none acc h, resolvableProjections_cons_none rest h, ih]
    | some agent =>
      rw [consensusStep_some acc h, resolvableProjections_cons_some rest h, ih]
      simp

lemma foldl_totalWeight (agents : ℤ → Option Agent) (bets : List AgentBet) :
    ∀ acc : SwarmAcc, (bets.foldl (consensusStep agents) acc).totalWeight =
      acc.totalWeight + ((resolvableProjections agents bets).map (fun p => p.weight)).sum := by
  induction bets with
  | nil => intro acc; simp [resolvableProjections]
  | cons bet rest ih =>
    intro acc
    rw [List.foldl_cons]
    cases h : agents bet.agentID with
    | none => rw [consensusStep_none acc h, resolvableProjections_cons_none rest h, ih]
    | some agent =>
      rw [consensusStep_some acc h, resolvableProjections_cons_some rest h, ih]
      simp [mkAgentPrediction]
      ring

lemma foldl_totalConfidence (agents : ℤ → Option Agent) (bets : List AgentBet) :
    ∀ acc : SwarmAcc, (bets.foldl (consensusStep agents) acc).totalConfidence =
      acc.totalConfidence +
        ((resolvableProjections agents bets).map (fun p => p.confidence)).sum := by
  induction bets with
  | nil => intro acc; simp [resolvableProjections]
  | cons bet rest ih =>
    intro acc
    rw [List.foldl_cons]
    cases h : agents bet.agentID with
    | none => rw [consensusStep_none acc h, resolvableProjections_cons_none rest h, ih]
    | some agent =>
      rw [consensusStep_some acc h, resolvableProjections_cons_some rest h, ih]
      simp [mkAgentPrediction]
      ring

lemma foldl_totalReputation (agents : ℤ → Option Agent) (bets : List AgentBet) :
    ∀ acc : SwarmAcc, (bets.foldl (consensusStep agents) acc).totalReputation =
      acc.totalReputation +
        ((resolvableProjections agents bets).map (fun p => p.reputation)).sum := by
  induction bets with
  | nil => intro acc; simp [resolvableProjections]
  | cons bet rest ih =>
    intro acc
    rw [List.foldl_cons]
    cases h : agents bet.agentID with
    | none => rw [consensusStep_none acc h, resolvableProjections_cons_none rest h, ih]
    | some agent =>
      rw [consensusStep_some acc h, resolvableProjections_cons_some rest h, ih]
      simp [mkAgentPrediction]
      ring

lemma foldl_weightedYesSum (agents : ℤ → Option Agent) (bets : List AgentBet) :
    ∀ acc : SwarmAcc, (bets.foldl (consensusStep agents) acc).weightedYesSum =
      acc.weightedYesSum +
        (((resolvableProjections agents bets).filter predYes).map (fun p => p.weight)).sum := by
  induction bets with
  | nil => intro acc; simp [resolvableProjections]
  | cons bet rest ih =>
    intro acc
    rw [List.foldl_cons]
    cases h : agents bet.agentID with
    | none => rw [consensusStep_none acc h, resolvableProjections_cons_none rest h, ih]
    | some agent =>
      rw [consensusStep_some acc h, resolvableProjections_cons_some rest h, ih]
      by_cases ho : bet.outcome = "yes"
      · simp [predYes, mkAgentPrediction, ho]
        ring
      · simp [predYes, mkAgentPrediction, ho]

lemma foldl_weightedNoSum (agents : ℤ → Option Agent) (bets : List AgentBet) :
    ∀ acc : SwarmAcc, (bets.foldl (consensusStep agents) acc).weightedNoSum =
      acc.weightedNoSum +
        (((resolvableProjections agents bets).filter (fun p => !predYes p)).map
          (fun p => p.weight)).sum := by
  induction bets with
  | nil => intro acc; simp [resolvableProjections]
  | cons bet rest ih =>
    intro acc
    rw [List.foldl_cons]
    cases h : agents bet.agentID with
    | none => rw [consensusStep_none acc h, resolvableProjections_cons_none rest h, ih]
    | some agent =>
      rw [consensusStep_some acc h, resolvableProjections_cons_some rest h, ih]
      by_cases ho : bet.outcome = "yes"
      · simp [predYes, mkAgentPrediction, ho]
      · simp [predYes, mkAgentPrediction, ho]
        ring

lemma foldl_yesCount (agents : ℤ → Option Agent) (bets : List AgentBet) :
    ∀ acc : SwarmAcc, (bets.foldl (consensusStep agents) acc).yesCount =
      acc.yesCount + (resolvableProjections agents bets).countP predYes := by
  induction bets with
  | nil => intro acc; simp [resolvableProjections]
  | cons bet rest ih =>
    intro acc
    rw [List.foldl_cons]
    cases h : agents bet.agentID with
    | none => rw [consensusStep_none acc h, resolvableProjections_cons_none rest h, ih]
    | some agent =>
      rw [consensusStep_some acc h, resolvableProjections_cons_some rest h, ih]
      by_cases ho : bet.outcome = "yes"
      · simp [predYes, mkAgentPrediction, ho, List.countP_cons]
        omega
      · simp [predYes, mkAgentPrediction, ho, List.countP_cons]

lemma foldl_noCount (agents : ℤ → Option Agent) (bets : List AgentBet) :
    ∀ acc : SwarmAcc, (bets.foldl (consensusStep agents) acc).noCount =
      acc.noCount + (resolvableProjections agents bets).countP (fun p => !predYes p) := by
  induction bets with
  | nil => intro acc; simp [resolvableProjections]
  | cons bet rest ih =>
    intro acc
    rw [List.foldl_cons]
    cases h : agents bet.agentID with
    | none => rw [consensusStep_none acc h, resolvableProjections_cons_none rest h, ih]
    | some agent =>
      rw [consensusStep_some acc h, resolvableProjections_cons_some rest h, ih]
      by_cases ho : bet.outcome = "yes"
      · simp [predYes, mkAgentPrediction, ho, List.countP_cons]
      · simp [predYes, mkAgentPrediction, ho, List.countP_cons]
        omega

lemma foldl_yesAmount (agents : ℤ → Option Agent) (bets : List AgentBet) :
    ∀ acc : SwarmAcc, (bets.foldl (consensusStep agents) acc).yesAmount =
      acc.yesAmount +
        (((resolvableProjections agents bets).filter predYes).map (fun p => p.amount)).sum := by
  induction bets with
  | nil => intro acc; simp [resolvableProjections]
  | cons bet rest ih =>
    intro acc
    rw [List.foldl_cons]
    cases h : agents bet.agentID with
    | none => rw [consensusStep_none acc h, resolvableProjections_cons_none rest h, ih]
    | some agent =>
      rw [consensusStep_some acc h, resolvableProjections_cons_some rest h, ih]
      by_cases ho : bet.outcome = "yes"
      · simp [predYes, mkAgentPrediction, ho]
        ring
      · simp [predYes, mkAgentPrediction, ho]

lemma foldl_noAmount (agents : ℤ → Option Agent) (bets : List AgentBet) :
    ∀ acc : SwarmAcc, (bets.foldl (consensusStep agents) acc).noAmount =
      acc.noAmount +
        (((resolvableProjections agents bets).filter (fun p => !predYes p)).map
          (fun p => p.amount)).sum := by
  induction bets with
  | nil => intro acc; simp [resolvableProjections]
  | cons bet rest ih =>
    intro acc
    rw [List.foldl_cons]
    cases h : agents bet.agentID with
    | none => rw [consensusStep_none acc h, resolvableProjections_cons_none rest h, ih]
    | some agent =>
      rw [consensusStep_some acc h, resolvableProjections_cons_some rest h, ih]
      by_cases ho : bet.outcome = "yes"
      · simp [predYes, mkAgentPrediction, ho]
      · simp [predYes, mkAgentPrediction, ho]
        ring

lemma sum_map_filter_split {α : Type} (l : List α) (f : α → ℝ) (p : α → Bool) :
    ((l.filter p).map f).sum + ((l.filter (fun a => !p a)).map f).sum = (l.map f).sum := by
  induction l with
  | nil => simp
  | cons a t ih =>
    by_cases hp : p a
    · simp [hp]
      linarith [ih]
    · simp [hp]
      linarith [ih]

lemma consensusProbability_eq (bets : List AgentBet) (agents : ℤ → Option Agent)
    (h : bets.length ≠ 0) :
    (calculateSwarmConsensus bets agents).consensusProbability =
      if 0 < ((resolvableProjections agents bets).map (fun p => p.weight)).sum then
        (((resolvableProjections agents bets).filter predYes).map (fun p => p.weight)).sum /
          ((resolvableProjections agents bets).map (fun p => p.weight)).sum
      else 0.5 := by
  simp only [calculateSwarmConsensus]
  rw [if_neg h]
  show (if 0 < (bets.foldl (consensusStep agents) initSwarmAcc).totalWeight then
      (bets.foldl (consensusStep agents) initSwarmAcc).weightedYesSum /
        (bets.foldl (consensusStep agents) initSwarmAcc).totalWeight
    else 0.5) = _
  rw [foldl_totalWeight, foldl_weightedYesSum]
  simp [initSwarmAcc]

lemma averageConfidence_eq (bets : List AgentBet) (agents : ℤ → Option Agent)
    (h : bets.length ≠ 0) :
    (calculateSwarmConsensus bets agents).averageConfidence =
      ((resolvableProjections agents bets).map (fun p => p.confidence)).sum /
        (bets.length : ℝ) := by
  simp only [calculateSwarmConsensus]
  rw [if_neg h]
  show (if 0 < bets.length then
      (bets.foldl (consensusStep agents) initSwarmAcc).totalConfidence / (bets.length : ℝ)
    else 0) = _
  rw [if_pos (Nat.pos_of_ne_zero h), foldl_totalConfidence]
  simp [initSwarmAcc]

lemma averageReputation_eq (bets : List AgentBet) (agents : ℤ → Option Agent)
    (h : bets.length ≠ 0) :
    (calculateSwarmConsensus bets agents).averageReputation =
      ((resolvableProjections agents bets).map (fun p => p.reputation)).sum /
        (bets.length : ℝ) := by
  simp only [calculateSwarmConsensus]
  rw [if_neg h]
  show (if 0 < bets.length then
      (bets.foldl (consensusStep agents) initSwarmAcc).totalReputation / (bets.length : ℝ)
    else 0) = _
  rw [if_pos (Nat.pos_of_ne_zero h), foldl_totalReputation]
  simp [initSwarmAcc]

/-- Sum of the weights of the YES-side projections. -/
noncomputable def yesWeightOf (rp : List AgentPrediction) : ℝ :=
  ((rp.filter predYes).map (fun p => p.weight)).sum

/-- Sum of the weights of the NO-side projections. -/
noncomputable def noWeightOf (rp : List AgentPrediction) : ℝ :=
  ((rp.filter (fun p => !predYes p)).map (fun p => p.weight)).sum

/-- Sum of the amounts of the YES-side projections. -/
def yesAmountOf (rp : List AgentPrediction) : ℤ :=
  ((rp.filter predYes).map (fun p => p.amount)).sum

/-- Sum of the amounts of the NO-side projections. -/
def noAmountOf (rp : List AgentPrediction) : ℤ :=
  ((rp.filter (fun p => !predYes p)).map (fun p => p.amount)).sum

lemma breakdown_eq (bets : List AgentBet) (agents : ℤ → Option Agent)
    (h : bets.length ≠ 0) :
    (calculateSwarmConsensus bets agents).breakdown =
      { yesCount := (resolvableProjections agents bets).countP predYes
        noCount := (resolvableProjections agents bets).countP (fun p => !predYes p)
        yesWeight := yesWeightOf (resolvableProjections agents bets)
        noWeight := noWeightOf (resolvableProjections agents bets)
        yesAmount := yesAmountOf (resolvableProjections agents bets)
        noAmount := noAmountOf (resolvableProjections agents bets) } := by
  simp only [calculateSwarmConsensus]
  rw [if_neg h]
  show ({ yesCount := (bets.foldl (consensusStep agents) initSwarmAcc).yesCount
          noCount := (bets.foldl (consensusStep agents) initSwarmAcc).noCount
          yesWeight := (bets.foldl (consensusStep agents) initSwarmAcc).weightedYesSum
          noWeight := (bets.foldl (consensusStep agents) initSwarmAcc).weightedNoSum
          yesAmount := (bets.foldl (consensusStep agents) initSwarmAcc).yesAmount
          noAmount := (bets.foldl (consensusStep agents) initSwarmAcc).noAmount } : SwarmBreakdown) = _
  rw [foldl_yesCount, foldl_noCount, foldl_weightedYesSum, foldl_weightedNoSum,
    foldl_yesAmount, foldl_noAmount]
  simp [initSwarmAcc, yesWeightOf, noWeightOf, yesAmountOf, noAmountOf]

lemma topPredictors_eq (bets : List AgentBet) (agents : ℤ → Option Agent)
    (h : bets.length ≠ 0) :
    (calculateSwarmConsensus bets agents).topPredictors =
      (bubbleSort (fun p => p.weight) (resolvableProjections agents bets)).take 10 := by
  simp only [calculateSwarmConsensus]
  rw [if_neg h]
  show (if 10 < (bubbleSort (fun p => p.weight)
        (bets.foldl (consensusStep agents) initSwarmAcc).topPredictors).length then
      (bubbleSort (fun p => p.weight)
        (bets.foldl (consensusStep agents) initSwarmAcc).topPredictors).take 10
    else bubbleSort (fun p => p.weight)
      (bets.foldl (consensusStep agents) initSwarmAcc).topPredictors) = _
  rw [foldl_topPredictors]
  simp only [initSwarmAcc, List.nil_append]
  split
  · rfl
  · next hlen => exact (List.take_of_length_le (by omega)).symm

/-- A concrete agent with reputation 1 for sample computations. -/
def agentA : Agent :=
  { agentZero with id := 1, name := "alice", reputation := 1 }

/-- Agent lookup resolving only agent id 1. -/
def agents1 : ℤ → Option Agent := fun i => if i = 1 then some agentA else none

/-- A resolvable YES bet of 99 with confidence 1. -/
def betA : AgentBet :=
  { id := 1, agentID := 1, marketID := 1, amount := 99, outcome := "yes",
    confidence := 1, reasoning := "signal" }

/-- A bet whose agent id 2 cannot be resolved (orphaned). -/
def betOrphan : AgentBet :=
  { id := 2, agentID := 2, marketID := 1, amount := 50, outcome := "no",
    confidence := 0, reasoning := "orphan" }

/-- A resolvable bet whose outcome string is the uppercase YES. -/
def betUpperYes : AgentBet :=
  { id := 3, agentID := 1, marketID := 1, amount := 99, outcome := "YES",
    confidence := 1, reasoning := "uppercase" }

/-- C4: the empty bet list yields the neutral report (probability 0.5,
zero agents, zero bets); otherwise each resolvable bet weighs
reputation * confidence * (ln(amount+1)/ln 100), the consensus probability
is weightedYesSum / (weightedYesSum + weightedNoSum) when that total
weight is positive, and falls back to 0.5 when the total weight is zero. -/
theorem consensusProbability_formula (bets : List AgentBet) (agents : ℤ → Option Agent) :
    (bets = [] →
      (calculateSwarmConsensus bets agents).consensusProbability = 0.5
      ∧ (calculateSwarmConsensus bets agents).totalAgents = 0
      ∧ (calculateSwarmConsensus bets agents).totalBets = 0)
    ∧ (∀ (agent : Agent) (bet : AgentBet), betWeight agent bet =
        agent.reputation * bet.confidence * (Real.log ((bet.amount : ℝ) + 1) / Real.log 100))
    ∧ (0 < yesWeightOf (resolvableProjections agents bets) +
          noWeightOf (resolvableProjections agents bets) →
        (calculateSwarmConsensus bets agents).consensusProbability =
          yesWeightOf (resolvableProjections agents bets) /
            (yesWeightOf (resolvableProjections agents bets) +
              noWeightOf (resolvableProjections agents bets)))
    ∧ (yesWeightOf (resolvableProjections agents bets) +
          noWeightOf (resolvableProjections agents bets) = 0 →
        (calculateSwarmConsensus bets agents).consensusProbability = 0.5) := by
  have hsplit : yesWeightOf (resolvableProjections agents bets) +
      noWeightOf (resolvableProjections agents bets) =
      ((resolvableProjections agents bets).map (fun p => p.weight)).sum :=
    sum_map_filter_split _ _ _
  refine ⟨fun hbe => ?_, fun agent bet => rfl, fun hpos => ?_, fun hzero => ?_⟩
  · subst hbe
    refine ⟨?_, ?_, ?_⟩ <;> simp [calculateSwarmConsensus]
  · have hb : bets.length ≠ 0 := by
      intro h0
      rw [List.length_eq_zero.mp h0] at hpos
      simp [resolvableProjections, yesWeightOf, noWeightOf] at hpos
    rw [consensusProbability_eq bets agents hb, yesWeightOf, if_pos (hsplit ▸ hpos)]
    rw [← hsplit, yesWeightOf]
  · by_cases hb : bets.length = 0
    · rw [List.length_eq_zero.mp hb]
      simp [calculateSwarmConsensus]
    · rw [consensusProbability_eq bets agents hb, if_neg]
      rw [← hsplit, hzero]
      norm_num

/-- C4 witness: one resolvable YES bet of amount 99 with confidence and
reputation 1 gives positive total weight and consensus probability
yesWeight / (yesWeight + noWeight). -/
theorem consensusProbability_formula_witness :
    (0 < yesWeightOf (resolvableProjections agents1 [betA]) +
        noWeightOf (resolvableProjections agents1 [betA]))
    ∧ (calculateSwarmConsensus [betA] agents1).consensusProbability =
        yesWeightOf (resolvableProjections agents1 [betA]) /
          (yesWeightOf (resolvableProjections agents1 [betA]) +
            noWeightOf (resolvableProjections agents1 [betA])) := by
  have hrp : resolvableProjections agents1 [betA] = [mkAgentPrediction agentA betA] := by
    have h1 : agents1 betA.agentID = some agentA := rfl
    rw [resolvableProjections_cons_some [] h1, resolvableProjections]
    rfl
  have hw : betWeight agentA betA = Real.log 100 / Real.log 100 := by
    simp [betWeight, agentA, betA, agentZero]
    norm_num
  have hlog : Real.log 100 / Real.log 100 = 1 := by
    rw [div_self (ne_of_gt (Real.log_pos (by norm_num)))]
  have hpos : 0 < yesWeightOf (resolvableProjections agents1 [betA]) +
      noWeightOf (resolvableProjections agents1 [betA]) := by
    rw [hrp]
    have hp : predYes (mkAgentPrediction agentA betA) = true := rfl
    have hwproj : (mkAgentPrediction agentA betA).weight = betWeight agentA betA := rfl
    rw [yesWeightOf, noWeightOf]
    simp [hp, hwproj, hw, hlog]
  exact ⟨hpos, ((consensusProbability_formula [betA] agents1).2.2.1) hpos⟩

/-- C2 (amended): averageConfidence and averageReputation are the sums of
confidence and reputation over the resolvable bets divided by the number
of ALL input bets: orphaned bets are excluded from the sums but still
counted in the divisor, so with orphans present these are not the means
over the resolvable bets. -/
theorem averages_divide_by_all_bets (bets : List AgentBet) (agents : ℤ → Option Agent)
    (h : bets ≠ []) :
    (calculateSwarmConsensus bets agents).averageConfidence =
      ((resolvableProjections agents bets).map (fun p => p.confidence)).sum /
        (bets.length : ℝ)
    ∧ (calculateSwarmConsensus bets agents).averageReputation =
      ((resolvableProjections agents bets).map (fun p => p.reputation)).sum /
        (bets.length : ℝ) :=
  ⟨averageConfidence_eq bets agents (by simpa using List.length_pos.mpr h |>.ne'),
    averageReputation_eq bets agents (by simpa using List.length_pos.mpr h |>.ne')⟩

/-- C2 witness: concrete two-bet list with one orphan. -/
theorem averages_divide_by_all_bets_witness :
    (calculateSwarmConsensus [betA, betOrphan] agents1).averageConfidence =
      ((resolvableProjections agents1 [betA, betOrphan]).map (fun p => p.confidence)).sum /
        (([betA, betOrphan] : List AgentBet).length : ℝ)
    ∧ (calculateSwarmConsensus [betA, betOrphan] agents1).averageReputation =
      ((resolvableProjections agents1 [betA, betOrphan]).map (fun p => p.reputation)).sum /
        (([betA, betOrphan] : List AgentBet).length : ℝ) :=
  averages_divide_by_all_bets [betA, betOrphan] agents1 (by simp)

/-- C2 counterexample: with one resolvable bet of confidence 1 and one
orphaned bet, the report's averageConfidence is 1/2 (sum over resolvable
bets divided by ALL bets) while the arithmetic mean over exactly the
resolvable bets is 1, so the claimed equality fails. -/
theorem averageConfidence_orphan_cex :
    (calculateSwarmConsensus [betA, betOrphan] agents1).averageConfidence = 1 / 2
    ∧ ((resolvableProjections agents1 [betA, betOrphan]).map (fun p => p.confidence)).sum /
        ((resolvableProjections agents1 [betA, betOrphan]).length : ℝ) = 1
    ∧ (calculateSwarmConsensus [betA, betOrphan] agents1).averageConfidence ≠
      ((resolvableProjections agents1 [betA, betOrphan]).map (fun p => p.confidence)).sum /
        ((resolvableProjections agents1 [betA, betOrphan]).length : ℝ) := by
  have h1 : agents1 betA.agentID = some agentA := rfl
  have h2 : agents1 betOrphan.agentID = none := rfl
  have hrp : resolvableProjections agents1 [betA, betOrphan] =
      [mkAgentPrediction agentA betA] := by
    rw [resolvableProjections_cons_some [betOrphan] h1,
      resolvableProjections_cons_none [] h2, resolvableProjections]
    rfl
  have havg := averageConfidence_eq [betA, betOrphan] agents1 (by simp)
  rw [hrp] at havg
  have hconf : (([mkAgentPrediction agentA betA].map (fun p => p.confidence)).sum : ℝ) = 1 := by
    simp [mkAgentPrediction, betA]
  refine ⟨?_, ?_, ?_⟩
  · rw [havg, hconf]
    norm_num
  · rw [hrp, hconf]
    norm_num
  · rw [havg, hrp, hconf]
    norm_num

/-- C10: the outcome test in calculateSwarmConsensus is case-sensitive: a
resolvable bet is accumulated on the YES side (yesCount, yesAmount,
weightedYesSum) exactly when its outcome string equals the lowercase yes;
every other string is accumulated on the NO side, and in particular a
resolvable bet with the uppercase outcome YES lands on the NO side. -/
theorem swarm_outcome_case_sensitive (bets : List AgentBet) (agents : ℤ → Option Agent)
    (h : bets ≠ []) :
    ((calculateSwarmConsensus bets agents).breakdown.yesCount =
        (resolvableProjections agents bets).countP predYes
      ∧ (calculateSwarmConsensus bets agents).breakdown.noCount =
        (resolvableProjections agents bets).countP (fun p => !predYes p)
      ∧ (calculateSwarmConsensus bets agents).breakdown.yesWeight =
        yesWeightOf (resolvableProjections agents bets)
      ∧ (calculateSwarmConsensus bets agents).breakdown.noWeight =
        noWeightOf (resolvableProjections agents bets)
      ∧ (calculateSwarmConsensus bets agents).breakdown.yesAmount =
        yesAmountOf (resolvableProjections agents bets)
      ∧ (calculateSwarmConsensus bets agents).breakdown.noAmount =
        noAmountOf (resolvableProjections agents bets))
    ∧ (∀ p : AgentPrediction, predYes p = true ↔ p.outcome = "yes")
    ∧ (calculateSwarmConsensus [betUpperYes] agents1).breakdown.yesCount = 0
    ∧ (calculateSwarmConsensus [betUpperYes] agents1).breakdown.noCount = 1 := by
  have hb : bets.length ≠ 0 := by simpa using List.length_pos.mpr h |>.ne'
  have hbrk := breakdown_eq bets agents hb
  have h1 : agents1 betUpperYes.agentID = some agentA := rfl
  have hrp : resolvableProjections agents1 [betUpperYes] =
      [mkAgentPrediction agentA betUpperYes] := by
    rw [resolvableProjections_cons_some [] h1, resolvableProjections]
    rfl
  have hbrk2 := breakdown_eq [betUpperYes] agents1 (by simp)
  rw [hrp] at hbrk2
  have hpu : predYes (mkAgentPrediction agentA betUpperYes) = false := rfl
  refine ⟨⟨?_, ?_, ?_, ?_, ?_, ?_⟩, fun p => by simp [predYes], ?_, ?_⟩
  · rw [hbrk]
  · rw [hbrk]
  · rw [hbrk]
  · rw [hbrk]
  · rw [hbrk]
  · rw [hbrk]
  · rw [hbrk2]
    simp [hpu]
  · rw [hbrk2]
    simp [hpu]

/-- C10 witness: the breakdown characterization at a concrete bet list. -/
theorem swarm_outcome_case_sensitive_witness :
    (((calculateSwarmConsensus [betA] agents1).breakdown.yesCount =
          (resolvableProjections agents1 [betA]).countP predYes)
      ∧ (calculateSwarmConsensus [betA] agents1).breakdown.noCount =
        (resolvableProjections agents1 [betA]).countP (fun p => !predYes p)
      ∧ (calculateSwarmConsensus [betA] agents1).breakdown.yesWeight =
        yesWeightOf (resolvableProjections agents1 [betA])
      ∧ (calculateSwarmConsensus [betA] agents1).breakdown.noWeight =
        noWeightOf (resolvableProjections agents1 [betA])
      ∧ (calculateSwarmConsensus [betA] agents1).breakdown.yesAmount =
        yesAmountOf (resolvableProjections agents1 [betA])
      ∧ (calculateSwarmConsensus [betA] agents1).breakdown.noAmount =
        noAmountOf (resolvableProjections agents1 [betA]))
    ∧ (∀ p : AgentPrediction, predYes p = true ↔ p.outcome = "yes")
    ∧ (calculateSwarmConsensus [betUpperYes] agents1).breakdown.yesCount = 0
    ∧ (calculateSwarmConsensus [betUpperYes] agents1).breakdown.noCount = 1 :=
  swarm_outcome_case_sensitive [betA] agents1 (by simp)

lemma innerLoop_zero {α : Type} (w : α → ℝ) (l : List α) : innerLoop w 0 l = l := by
  cases l with
  | nil => rfl
  | cons a t => cases t <;> rfl

lemma innerLoop_succ_cons {α : Type} (w : α → ℝ) (f : ℕ) (a b : α) (t : List α) :
    innerLoop w (f + 1) (a :: b :: t) =
      if w a < w b then b :: innerLoop w f (a :: t) else a :: innerLoop w f (b :: t) := rfl

lemma innerLoop_length {α : Type} (w : α → ℝ) :
    ∀ (f : ℕ) (l : List α), (innerLoop w f l).length = l.length := by
  intro f
  induction f with
  | zero => intro l; rw [innerLoop_zero]
  | succ n ih =>
    intro l
    match l with
    | [] => rfl
    | [a] => rfl
    | a :: b :: t =>
      rw [innerLoop_succ_cons]
      by_cases h : w a < w b
      · rw [if_pos h]
        simp [ih (a :: t)]
      · rw [if_neg h]
        simp [ih (b :: t)]

lemma innerLoop_perm {α : Type} (w : α → ℝ) :
    ∀ (f : ℕ) (l : List α), List.Perm (innerLoop w f l) l := by
  intro f
  induction f with
  | zero => intro l; rw [innerLoop_zero]
  | succ n ih =>
    intro l
    match l with
    | [] => exact List.Perm.refl _
    | [a] => exact List.Perm.refl _
    | a :: b :: t =>
      rw [innerLoop_succ_cons]
      by_cases h : w a < w b
      · rw [if_pos h]
        exact ((ih (a :: t)).cons b).trans (List.Perm.swap a b t)
      · rw [if_neg h]
        exact (ih (b :: t)).cons a

lemma innerLoop_filter {α : Type} (w : α → ℝ) (p : α → Bool)
    (hp : ∀ a b : α, w a < w b → ¬(p a = true ∧ p b = true)) :
    ∀ (f : ℕ) (l : List α), (innerLoop w f l).filter p = l.filter p := by
  intro f
  induction f with
  | zero => intro l; rw [innerLoop_zero]
  | succ n ih =>
    intro l
    match l with
    | [] => rfl
    | [a] => rfl
    | a :: b :: t =>
      rw [innerLoop_succ_cons]
      by_cases h : w a < w b
      · rw [if_pos h]
        by_cases pb : p b = true
        · have pa : ¬p a = true := fun pa => hp a b h ⟨pa, pb⟩
          simp only [List.filter_cons, pb, pa, if_true, if_false, Bool.false_eq_true]
          rw [ih (a :: t)]
          simp [List.filter_cons, pa]
        · simp only [List.filter_cons, pb, if_false, Bool.false_eq_true]
          rw [ih (a :: t)]
          simp [List.filter_cons]
      · rw [if_neg h]
        simp only [List.filter_cons]
        rw [ih (b :: t)]
        simp [List.filter_cons]

lemma innerLoop_append {α : Type} (w : α → ℝ) :
    ∀ (f : ℕ) (p s : List α), f < p.length →
      innerLoop w f (p ++ s) = innerLoop w f p ++ s := by
  intro f
  induction f with
  | zero => intro p s _; rw [innerLoop_zero, innerLoop_zero]
  | succ n ih =>
    intro p s hf
    match p, hf with
    | [a], hf => simp at hf
    | a :: b :: t, hf =>
      show innerLoop w (n + 1) (a :: b :: (t ++ s)) = innerLoop w (n + 1) (a :: b :: t) ++ s
      rw [innerLoop_succ_cons, innerLoop_succ_cons]
      have hlt : n < (a :: t).length := by
        simp only [List.length_cons] at hf ⊢
        omega
      have hlt' : n < (b :: t).length := by
        simp only [List.length_cons] at hf ⊢
        omega
      by_cases h : w a < w b
      · rw [if_pos h, if_pos h, List.cons_append]
        rw [show a :: (t ++ s) = (a :: t) ++ s from rfl, ih (a :: t) s hlt]
      · rw [if_neg h, if_neg h, List.cons_append]
        rw [show b :: (t ++ s) = (b :: t) ++ s from rfl, ih (b :: t) s hlt']

lemma innerLoop_getLast_min {α : Type} (w : α → ℝ) :
    ∀ (f : ℕ) (l : List α), l ≠ [] → l.length ≤ f + 1 →
      ∃ m, (innerLoop w f l).getLast? = some m ∧ ∀ x ∈ l, w m ≤ w x := by
  intro f
  induction f with
  | zero =>
    intro l hne hlen
    match l with
    | [a] =>
      refine ⟨a, rfl, ?_⟩
      intro x hx
      rw [List.mem_singleton] at hx
      rw [hx]
    | a :: b :: t => simp at hlen
  | succ n ih =>
    intro l hne hlen
    match l with
    | [a] =>
      refine ⟨a, rfl, ?_⟩
      intro x hx
      rw [List.mem_singleton] at hx
      rw [hx]
    | a :: b :: t =>
      rw [innerLoop_succ_cons]
      have hlen' : (a :: t).length ≤ n + 1 := by
        simp only [List.length_cons] at hlen ⊢
        omega
      have hlen'' : (b :: t).length ≤ n + 1 := by
        simp only [List.length_cons] at hlen ⊢
        omega
      by_cases h : w a < w b
      · rw [if_pos h]
        obtain ⟨m, hm1, hm2⟩ := ih (a :: t) (List.cons_ne_nil a t) hlen'
        have hX : innerLoop w n (a :: t) ≠ [] := by
          intro h0
          have := innerLoop_length w n (a :: t)
          rw [h0] at this
          simp at this
        obtain ⟨x0, xs, hxs⟩ := List.exists_cons_of_ne_nil hX
        refine ⟨m, ?_, ?_⟩
        · rw [hxs, List.getLast?_cons_cons, ← hxs, hm1]
        · intro x hx
          rcases List.mem_cons.mp hx with hxa | hx2
          · exact hxa ▸ hm2 a (List.mem_cons_self a t)
          · rcases List.mem_cons.mp hx2 with hxb | hxt
            · have hma := hm2 a (List.mem_cons_self a t)
              rw [hxb]
              exact le_trans hma (le_of_lt h)
            · exact hm2 x (List.mem_cons_of_mem a hxt)
      · rw [if_neg h]
        obtain ⟨m, hm1, hm2⟩ := ih (b :: t) (List.cons_ne_nil b t) hlen''
        have hX : innerLoop w n (b :: t) ≠ [] := by
          intro h0
          have := innerLoop_length w n (b :: t)
          rw [h0] at this
          simp at this
        obtain ⟨x0, xs, hxs⟩ := List.exists_cons_of_ne_nil hX
        refine ⟨m, ?_, ?_⟩
        · rw [hxs, List.getLast?_cons_cons, ← hxs, hm1]
        · intro x hx
          rcases List.mem_cons.mp hx with hxa | hx2
          · have hmb := hm2 b (List.mem_cons_self b t)
            rw [hxa]
            exact le_trans hmb (le_of_not_lt h)
          · exact hm2 x hx2

/-- State of the outer bubble-sort loop after its first k iterations. -/
noncomputable def bubbleOuter {α : Type} (w : α → ℝ) (n : ℕ) (l : List α) (k : ℕ) : List α :=
  (List.range k).foldl (fun cur i => innerLoop w (n - i - 1) cur) l

lemma bubbleSort_eq_outer {α : Type} (w : α → ℝ) (l : List α) :
    bubbleSort w l = bubbleOuter w l.length l (l.length - 1) := rfl

lemma bubbleOuter_zero {α : Type} (w : α → ℝ) (n : ℕ) (l : List α) :
    bubbleOuter w n l 0 = l := rfl

lemma bubbleOuter_succ {α : Type} (w : α → ℝ) (n : ℕ) (l : List α) (k : ℕ) :
    bubbleOuter w n l (k + 1) = innerLoop w (n - k - 1) (bubbleOuter w n l k) := by
  rw [bubbleOuter, List.range_succ, List.foldl_append]
  rfl

lemma sorted_of_drop_one {α : Type} (r : α → α → Prop) (l : List α)
    (h1 : (l.drop 1).Sorted r)
    (h2 : ∀ y ∈ l.drop 1, ∀ x ∈ l.take 1, r x y) : l.Sorted r := by
  match l with
  | [] => exact List.sorted_nil
  | a :: t =>
    rw [List.sorted_cons]
    exact ⟨fun b hb => h2 b hb a (List.mem_singleton_self a), h1⟩

lemma bubbleOuter_inv {α : Type} (w : α → ℝ) (l : List α) :
    ∀ k : ℕ, k ≤ l.length - 1 →
      (bubbleOuter w l.length l k).length = l.length
      ∧ ((bubbleOuter w l.length l k).drop (l.length - k)).Sorted (fun a b => w b ≤ w a)
      ∧ ∀ y ∈ (bubbleOuter w l.length l k).drop (l.length - k),
          ∀ x ∈ (bubbleOuter w l.length l k).take (l.length - k), w y ≤ w x := by
  intro k
  induction k with
  | zero =>
    intro _
    refine ⟨rfl, ?_, ?_⟩
    · rw [bubbleOuter_zero, Nat.sub_zero, List.drop_length]
      exact List.sorted_nil
    · rw [bubbleOuter_zero, Nat.sub_zero, List.drop_length]
      intro y hy
      simp at hy
  | succ k ih =>
    intro hk1
    have hn2 : k + 2 ≤ l.length := by omega
    obtain ⟨hlen, hsort, hle⟩ := ih (by omega)
    set cur := bubbleOuter w l.length l k with hcur
    set p := cur.take (l.length - k) with hp
    set s := cur.drop (l.length - k) with hs
    have hps : p ++ s = cur := List.take_append_drop _ _
    have hplen : p.length = l.length - k := by
      rw [hp, List.length_take, hlen]
      omega
    have hpne : p ≠ [] := by
      intro h0
      rw [h0] at hplen
      simp at hplen
      omega
    have hfuel : l.length - k - 1 < p.length := by
      rw [hplen]
      omega
    have hnew : bubbleOuter w l.length l (k + 1) = innerLoop w (l.length - k - 1) cur := by
      rw [bubbleOuter_succ]
    have hsplit : innerLoop w (l.length - k - 1) cur =
        innerLoop w (l.length - k - 1) p ++ s := by
      rw [← hps, innerLoop_append w _ p s hfuel]
    set q := innerLoop w (l.length - k - 1) p with hq
    have hqlen : q.length = l.length - k := by
      rw [hq, innerLoop_length, hplen]
    have hqne : q ≠ [] := by
      intro h0
      rw [h0] at hqlen
      simp at hqlen
      omega
    have hqperm : List.Perm q p := innerLoop_perm w _ p
    obtain ⟨m, hm1, hm2⟩ := innerLoop_getLast_min w (l.length - k - 1) p hpne (by omega)
    have hm1' : q.getLast? = some m := hm1
    have hmlast : q.getLast hqne = m := by
      have := List.getLast?_eq_getLast q hqne
      rw [this] at hm1'
      exact (Option.some.injEq _ _).mp hm1' |>.symm ▸ rfl
    have hqdecomp : q.dropLast ++ [m] = q := by
      rw [← hmlast]
      exact List.dropLast_append_getLast hqne
    have hdll : q.dropLast.length = l.length - (k + 1) := by
      rw [List.length_dropLast, hqlen]
      omega
    have hmem_p : ∀ x ∈ q.dropLast, x ∈ p := by
      intro x hx
      exact hqperm.mem_iff.mp (List.dropLast_sublist q |>.subset hx)
    have hm_in_p : m ∈ p := hqperm.mem_iff.mp (hmlast ▸ List.getLast_mem hqne)
    have hnew2 : bubbleOuter w l.length l (k + 1) = q.dropLast ++ (m :: s) := by
      rw [hnew, hsplit]
      conv_lhs => rw [← hqdecomp]
      rw [List.append_assoc]
      rfl
    have hdrop : (bubbleOuter w l.length l (k + 1)).drop (l.length - (k + 1)) = m :: s := by
      rw [hnew2, List.drop_left' hdll]
    have htake : (bubbleOuter w l.length l (k + 1)).take (l.length - (k + 1)) = q.dropLast := by
      rw [hnew2, List.take_left' hdll]
    refine ⟨?_, ?_, ?_⟩
    · rw [hnew, innerLoop_length, hlen]
    · rw [hdrop, List.sorted_cons]
      refine ⟨fun b hb => hle b hb m hm_in_p, hsort⟩
    · intro y hy x hx
      rw [hdrop] at hy
      rw [htake] at hx
      rcases List.mem_cons.mp hy with hym | hys
      · exact hym ▸ hm2 x (hmem_p x hx)
      · exact hle y hys x (hmem_p x hx)

lemma bubbleSort_length {α : Type} (w : α → ℝ) (l : List α) :
    (bubbleSort w l).length = l.length := by
  rw [bubbleSort_eq_outer]
  rcases Nat.eq_zero_or_pos l.length with h0 | hpos
  · rw [List.length_eq_zero.mp h0]
    rfl
  · exact (bubbleOuter_inv w l (l.length - 1) le_rfl).1

lemma bubbleSort_sorted {α : Type} (w : α → ℝ) (l : List α) :
    (bubbleSort w l).Sorted (fun a b => w b ≤ w a) := by
  rw [bubbleSort_eq_outer]
  rcases Nat.eq_zero_or_pos l.length with h0 | hpos
  · rw [List.length_eq_zero.mp h0]
    exact List.sorted_nil
  · obtain ⟨hlen, hsort, hle⟩ := bubbleOuter_inv w l (l.length - 1) le_rfl
    have h1 : l.length - (l.length - 1) = 1 := by omega
    rw [h1] at hsort hle
    exact sorted_of_drop_one _ _ hsort hle

lemma bubbleOuter_perm {α : Type} (w : α → ℝ) (n : ℕ) (l : List α) (k : ℕ) :
    List.Perm (bubbleOuter w n l k) l := by
  induction k with
  | zero => exact List.Perm.refl _
  | succ k ih =>
    rw [bubbleOuter_succ]
    exact (innerLoop_perm w _ _).trans ih

lemma bubbleSort_perm {α : Type} (w : α → ℝ) (l : List α) :
    List.Perm (bubbleSort w l) l := by
  rw [bubbleSort_eq_outer]
  exact bubbleOuter_perm w l.length l (l.length - 1)

lemma bubbleOuter_filter {α : Type} (w : α → ℝ) (p : α → Bool)
    (hp : ∀ a b : α, w a < w b → ¬(p a = true ∧ p b = true))
    (n : ℕ) (l : List α) (k : ℕ) :
    (bubbleOuter w n l k).filter p = l.filter p := by
  induction k with
  | zero => rfl
  | succ k ih =>
    rw [bubbleOuter_succ, innerLoop_filter w p hp, ih]

lemma bubbleSort_filter {α : Type} (w : α → ℝ) (p : α → Bool)
    (hp : ∀ a b : α, w a < w b → ¬(p a = true ∧ p b = true)) (l : List α) :
    (bubbleSort w l).filter p = l.filter p := by
  rw [bubbleSort_eq_outer]
  exact bubbleOuter_filter w p hp l.length l (l.length - 1)

/-- C5: the report's topPredictors list is the bubble sort of the per-bet
projections of the resolvable bets truncated to at most 10 entries, and
that sort is a permutation of the projections, descending in weight, and
stable: for every weight value the sublist of entries of that weight is
exactly the corresponding sublist of the input, i.e. equal-weight entries
keep their original input order. -/
theorem topPredictors_sorted_stable_top10 (bets : List AgentBet) (agents : ℤ → Option Agent) :
    (calculateSwarmConsensus bets agents).topPredictors =
      (bubbleSort (fun p => p.weight) (resolvableProjections agents bets)).take 10
    ∧ List.Perm (bubbleSort (fun p => p.weight) (resolvableProjections agents bets))
        (resolvableProjections agents bets)
    ∧ (bubbleSort (fun p => p.weight) (resolvableProjections agents bets)).Sorted
        (fun a b => b.weight ≤ a.weight)
    ∧ ∀ c : ℝ,
        (bubbleSort (fun p => p.weight) (resolvableProjections agents bets)).filter
            (fun p => decide (p.weight = c)) =
          (resolvableProjections agents bets).filter (fun p => decide (p.weight = c)) := by
  refine ⟨?_, bubbleSort_perm _ _, bubbleSort_sorted _ _, fun c => ?_⟩
  · by_cases hb : bets.length = 0
    · rw [List.length_eq_zero.mp hb]
      show ([] : List AgentPrediction) = _
      rw [show resolvableProjections agents [] = [] from rfl]
      rfl
    · exact topPredictors_eq bets agents hb
  · apply bubbleSort_filter
    intro a b hab hconj
    have h1 : a.weight = c := of_decide_eq_true hconj.1
    have h2 : b.weight = c := of_decide_eq_true hconj.2
    rw [h1, h2] at hab
    exact lt_irrefl c hab

lemma lmsr100_cost_eq (x : ℝ) (hx : x ≤ 2000) :
    lmsr100.Cost x 2000 = 2000 + 100 * Real.log (Real.exp ((x - 2000) / 100) + 1) := by
  simp only [LMSR.Cost, lmsr100]
  rw [max_eq_right hx]
  norm_num [Real.exp_zero]

lemma costToBuy_yes_eq (t : ℝ) (ht : t ≤ 2000) :
    lmsr100.CostToBuy 0 2000 t "yes" =
      100 * (Real.log (Real.exp ((t - 2000) / 100) + 1) -
        Real.log (Real.exp (-20 : ℝ) + 1)) := by
  simp only [LMSR.CostToBuy]
  rw [if_pos (Or.inl trivial), zero_add, lmsr100_cost_eq t ht,
    lmsr100_cost_eq 0 (by norm_num)]
  norm_num
  ring

lemma log_exp_term_bounds (u v : ℝ) (h : v ≤ u) :
    0 ≤ Real.log (Real.exp u + 1) - Real.log (Real.exp v + 1)
    ∧ Real.log (Real.exp u + 1) - Real.log (Real.exp v + 1) ≤ Real.exp u := by
  have hv : (0 : ℝ) < Real.exp v + 1 := by positivity
  have hu : (0 : ℝ) < Real.exp u + 1 := by positivity
  have hee : Real.exp v ≤ Real.exp u := Real.exp_le_exp.mpr h
  constructor
  · have := Real.log_le_log hv (by linarith : Real.exp v + 1 ≤ Real.exp u + 1)
    linarith
  · have hlogdiv : Real.log (Real.exp u + 1) - Real.log (Real.exp v + 1) =
        Real.log ((Real.exp u + 1) / (Real.exp v + 1)) :=
      (Real.log_div hu.ne' hv.ne').symm
    have h2 : Real.log ((Real.exp u + 1) / (Real.exp v + 1)) ≤
        (Real.exp u + 1) / (Real.exp v + 1) - 1 :=
      Real.log_le_sub_one_of_pos (by positivity)
    have h3 : (Real.exp u + 1) / (Real.exp v + 1) - 1 =
        (Real.exp u - Real.exp v) / (Real.exp v + 1) := by
      field_simp
    have h4 : (Real.exp u - Real.exp v) / (Real.exp v + 1) ≤ Real.exp u - Real.exp v :=
      div_le_self (by linarith) (by linarith [Real.exp_pos v])
    have h5 : Real.exp u - Real.exp v ≤ Real.exp u := by linarith [Real.exp_pos v]
    linarith

lemma log_exp_term_pos (u v : ℝ) (h : v < u) :
    0 < Real.log (Real.exp u + 1) - Real.log (Real.exp v + 1) := by
  have := Real.exp_lt_exp.mpr h
  have := Real.log_lt_log (by positivity : (0 : ℝ) < Real.exp v + 1)
    (by linarith : Real.exp v + 1 < Real.exp u + 1)
  linarith

lemma exp_le_tiny (u : ℝ) (hu : u ≤ -19) : Real.exp u ≤ 1 / 100000000 := by
  have h1 : Real.exp u ≤ Real.exp (-19 : ℝ) := Real.exp_le_exp.mpr hu
  have h2 : Real.exp (-19 : ℝ) = (Real.exp (19 : ℝ))⁻¹ := Real.exp_neg 19
  have h3 : (Real.exp 1) ^ (19 : ℕ) = Real.exp ((19 : ℕ) : ℝ) := Real.exp_one_pow 19
  have h4 : (2.7 : ℝ) ^ (19 : ℕ) < (Real.exp 1) ^ (19 : ℕ) :=
    pow_lt_pow_left₀ (lt_trans (by norm_num) Real.exp_one_gt_d9) (by norm_num) (by norm_num)
  have h5 : (100000000 : ℝ) < (2.7 : ℝ) ^ (19 : ℕ) := by norm_num
  have h6 : (100000000 : ℝ) < Real.exp (19 : ℝ) := by
    have : ((19 : ℕ) : ℝ) = (19 : ℝ) := by norm_num
    rw [← this, ← h3]
    linarith
  have h7 : (Real.exp (19 : ℝ))⁻¹ ≤ (100000000 : ℝ)⁻¹ :=
    inv_anti₀ (by norm_num) h6.le
  rw [h2] at h1
  calc Real.exp u ≤ (Real.exp (19 : ℝ))⁻¹ := h1
    _ ≤ (100000000 : ℝ)⁻¹ := h7
    _ = 1 / 100000000 := by norm_num

lemma sharesLoop_succ_eq (l : LMSR) (qY qN cost : ℝ) (o : String) (n : ℕ) (low high : ℝ) :
    l.sharesLoop qY qN cost o (n + 1) low high =
      if |l.CostToBuy qY qN ((low + high) / 2) o - cost| < 0.0001 then (low + high) / 2
      else if l.CostToBuy qY qN ((low + high) / 2) o < cost then
        l.sharesLoop qY qN cost o n ((low + high) / 2) high
      else l.sharesLoop qY qN cost o n low ((low + high) / 2) := rfl

/-- C3 fails on the code: at liquidity b = 100, qYes = 0, qNo = 2000,
outcome yes (a valid outcome) and shares = 1, the buy cost is positive
but below the bisection's 0.0001 residual tolerance; SharesForCost exits
on its first iteration at mid = 5 * cost (at most 5e-6 shares), so the
buy-then-invert round trip misses the bought share count 1 by almost 1,
far outside the claimed 1e-3 tolerance. -/
theorem sharesForCost_roundtrip_failure :
    0 < lmsr100.B
    ∧ 0 < lmsr100.CostToBuy 0 2000 1 "yes"
    ∧ |lmsr100.SharesForCost 0 2000 (lmsr100.CostToBuy 0 2000 1 "yes") "yes" - 1|
        > 1 / 1000 := by
  set c := lmsr100.CostToBuy 0 2000 1 "yes" with hc
  have hc_eq : c = 100 * (Real.log (Real.exp (((1 : ℝ) - 2000) / 100) + 1) -
      Real.log (Real.exp (-20 : ℝ) + 1)) := costToBuy_yes_eq 1 (by norm_num)
  have hu1 : ((1 : ℝ) - 2000) / 100 ≤ -19 := by norm_num
  have hv1 : (-20 : ℝ) ≤ ((1 : ℝ) - 2000) / 100 := by norm_num
  have hc_pos : 0 < c := by
    rw [hc_eq]
    have := log_exp_term_pos (((1 : ℝ) - 2000) / 100) (-20) (by norm_num)
    linarith
  have hc_le : c ≤ 1 / 1000000 := by
    rw [hc_eq]
    have hb := (log_exp_term_bounds (((1 : ℝ) - 2000) / 100) (-20) hv1).2
    have he := exp_le_tiny (((1 : ℝ) - 2000) / 100) hu1
    linarith
  have hmid : ((0 : ℝ) + c * 10) / 2 = c * 5 := by ring
  have hmid_le : c * 5 ≤ 2000 := by linarith
  have hmidcost_eq : lmsr100.CostToBuy 0 2000 (c * 5) "yes" =
      100 * (Real.log (Real.exp ((c * 5 - 2000) / 100) + 1) -
        Real.log (Real.exp (-20 : ℝ) + 1)) := costToBuy_yes_eq (c * 5) hmid_le
  have hu2 : (c * 5 - 2000) / 100 ≤ -19 := by
    have : c * 5 ≤ 5 / 1000000 := by linarith
    linarith
  have hv2 : (-20 : ℝ) ≤ (c * 5 - 2000) / 100 := by
    have : 0 ≤ c * 5 := by linarith
    linarith
  have hmc_bounds := log_exp_term_bounds ((c * 5 - 2000) / 100) (-20) hv2
  have hmc_exp := exp_le_tiny ((c * 5 - 2000) / 100) hu2
  have hmc_nonneg : 0 ≤ lmsr100.CostToBuy 0 2000 (c * 5) "yes" := by
    rw [hmidcost_eq]
    linarith [hmc_bounds.1]
  have hmc_le : lmsr100.CostToBuy 0 2000 (c * 5) "yes" ≤ 1 / 1000000 := by
    rw [hmidcost_eq]
    linarith [hmc_bounds.2]
  have hcond : |lmsr100.CostToBuy 0 2000 ((0 + c * 10) / 2) "yes" - c| < 0.0001 := by
    rw [hmid, abs_lt]
    constructor <;> [linarith; linarith]
  have hshares : lmsr100.SharesForCost 0 2000 c "yes" = c * 5 := by
    rw [LMSR.SharesForCost, if_neg (not_le.mpr hc_pos), sharesLoop_succ_eq,
      if_pos hcond, hmid]
  refine ⟨by norm_num [lmsr100], hc_pos, ?_⟩
  rw [hshares, abs_sub_comm, abs_of_nonneg (by linarith : (0 : ℝ) ≤ 1 - c * 5)]
  linarith
